import Mathlib

/-!
Verification of the song-queue core of the yt_box backend
(`backend/song_queuer/fifo_queuer.go` and the backend RPC server in the
same source bundle), as a shallow embedding in Lean.

The Go `FifoQueuer` keeps a doubly-linked `list.List` of `*cmpb.Song`
(`playQueue`) and a `nowPlaying` pointer.  We model the linked list as a
Lean `List Song` (front of the Go list = head of the Lean list) and the
nullable `nowPlaying` pointer as `Option Song`.  The `uint32` song and
user ids are modelled as `Nat`: the source only ever compares them for
equality and never performs arithmetic on them, so no overflow behaviour
is observable.  Locks are dropped for the sequential operations (each Go
method is one critical section, so sequential semantics coincide); the
condition-variable race in `WaitForMoreSongs` is modelled separately by
an explicit interleaving machine further below.
-/

namespace YtBox

/-- The `cmpb.Song` protobuf message, with the six fields the source
reads and writes (`Title`, `SongId`, `Username`, `UserId`, `Service`,
`ServiceId`).  The `Service` enum is modelled as a `Nat` tag. -/
structure Song where
  title : String
  songId : Nat
  username : String
  userId : Nat
  service : Nat
  serviceId : String
deriving DecidableEq, Repr

/-- State of the Go `FifoQueuer`: the `playQueue` linked list (head =
front) and the nullable `nowPlaying` pointer. -/
structure FifoQueuer where
  playQueue : List Song
  nowPlaying : Option Song
deriving DecidableEq, Repr

namespace FifoQueuer

/-- Source `FifoQueuer.Init`: fresh empty queue; `nowPlaying` is the Go zero
value `nil`. -/
def Init : FifoQueuer := ⟨[], none⟩

/-- Source `FifoQueuer.AddSong`: `fifo.playQueue.PushBack(song)` — appends the
song unconditionally.  (The `cond.Broadcast` on the 0→1 transition has
no effect on the queue state; it is modelled in the wait machine
below.) -/
def AddSong (fifo : FifoQueuer) (song : Song) : FifoQueuer :=
  { fifo with playQueue := fifo.playQueue ++ [song] }

/-- Source `FifoQueuer.Len`: `fifo.playQueue.Len()`. -/
def Len (fifo : FifoQueuer) : Nat := fifo.playQueue.length

/-- Source `FifoQueuer.NowPlaying`: returns the `nowPlaying` pointer. -/
def NowPlaying (fifo : FifoQueuer) : Option Song := fifo.nowPlaying

/-- Source `FifoQueuer.GetPlaylist`: the songs from front to back. -/
def GetPlaylist (fifo : FifoQueuer) : List Song := fifo.playQueue

/-- Source `FifoQueuer.PopQueue`: sets `nowPlaying = nil`, then, if the queue
is non-empty, removes the front element, stores it in `nowPlaying` and
returns it; otherwise returns `nil`.  Result is (returned song, new
state).  Note the clear of `nowPlaying` happens before the emptiness
check, exactly as in the source. -/
def PopQueue (fifo : FifoQueuer) : Option Song × FifoQueuer :=
  let cleared : FifoQueuer := { fifo with nowPlaying := none }
  match cleared.playQueue with
  | [] => (none, cleared)
  | front :: rest => (some front, ⟨rest, some front⟩)

/-- Outcome of `FifoQueuer.RemoveSong`: `removed rest` is the `nil`
error return (with the queue left as `rest`), `permissionDenied` the
"user id does not match" error, `notFound` the "does not exist" error. -/
inductive RemoveOutcome where
  | removed (rest : List Song)
  | permissionDenied
  | notFound
deriving DecidableEq, Repr

/-- The scan loop of `FifoQueuer.RemoveSong`: walk the queue from the
front; at the first element whose `SongId` matches, either remove it
(submitter matches) or fail with the permission error; fail with the
not-found error if no element matches. -/
def removeScan (songId userId : Nat) : List Song → RemoveOutcome
  | [] => .notFound
  | s :: rest =>
    if s.songId = songId then
      if s.userId = userId then .removed rest
      else .permissionDenied
    else
      match removeScan songId userId rest with
      | .removed q => .removed (s :: q)
      | .permissionDenied => .permissionDenied
      | .notFound => .notFound

/-- Source `FifoQueuer.RemoveSong`: returns the outcome and the resulting
state (unchanged unless the removal succeeded; `nowPlaying` is never
touched). -/
def RemoveSong (fifo : FifoQueuer) (songId userId : Nat) :
    RemoveOutcome × FifoQueuer :=
  match removeScan songId userId fifo.playQueue with
  | .removed q => (.removed q, { fifo with playQueue := q })
  | .permissionDenied => (.permissionDenied, fifo)
  | .notFound => (.notFound, fifo)

/-- Source `FifoQueuer.SavePlaylist`: the byte content written to the file is
`proto.Marshal` of `GetPlaylist()`.  `proto.Marshal`/`proto.Unmarshal`
are external library inverses, so the file content is modelled as the
playlist value itself. -/
def SavePlaylist (fifo : FifoQueuer) : List Song := fifo.GetPlaylist

end FifoQueuer

/-! ### Operation sequences over the queue -/

/-- An add/pop operation on the queuer (for the FIFO-order claim). -/
inductive APOp where
  | add (song : Song)
  | pop
deriving DecidableEq, Repr

/-- Apply one add/pop operation to a `FifoQueuer`. -/
def applyAP (fifo : FifoQueuer) : APOp → FifoQueuer
  | .add song => fifo.AddSong song
  | .pop => (fifo.PopQueue).2

/-- Run a list of add/pop operations, front first. -/
def runAP (fifo : FifoQueuer) : List APOp → FifoQueuer
  | [] => fifo
  | op :: ops => runAP (applyAP fifo op) ops

/-- Ghost-instrumented queue: each element is paired with its enqueue
sequence number (the position of its `AddSong` in the operation
history).  Mirrors the `playQueue` list of the source exactly; the
numbers are specification ghosts. -/
structure SeqQueue where
  queue : List (Nat × Song)
  counter : Nat
deriving DecidableEq, Repr

/-- Initial instrumented state. -/
def seqInit : SeqQueue := ⟨[], 0⟩

/-- Instrumented `AddSong` (append, stamped with the next sequence
number) and `PopQueue` (drop the front element, as the source does on a
non-empty queue; no-op on an empty one). -/
def applySeq (t : SeqQueue) : APOp → SeqQueue
  | .add song => ⟨t.queue ++ [(t.counter, song)], t.counter + 1⟩
  | .pop => ⟨t.queue.tail, t.counter⟩

/-- Run a list of operations on the instrumented queue. -/
def runSeq (t : SeqQueue) : List APOp → SeqQueue
  | [] => t
  | op :: ops => runSeq (applySeq t op) ops

/-- An operation of the queue manager surface used by the length
accounting claim: add, pop, or remove. -/
inductive MgrOp where
  | add (song : Song)
  | pop
  | remove (songId userId : Nat)
deriving DecidableEq, Repr

/-- Apply one manager operation to the queue state. -/
def applyMgr (fifo : FifoQueuer) : MgrOp → FifoQueuer
  | .add song => fifo.AddSong song
  | .pop => (fifo.PopQueue).2
  | .remove songId userId => (fifo.RemoveSong songId userId).2

/-- A run of manager operations together with the operation counters
of the accounting claim: number of `AddSong` calls, number of
`PopQueue` calls, number of `PopQueue` calls that returned a song, and
number of successful `RemoveSong` calls. -/
structure MgrRun where
  state : FifoQueuer
  adds : Nat
  pops : Nat
  okPops : Nat
  okRemoves : Nat
deriving DecidableEq, Repr

/-- One counted step. -/
def mgrStep (r : MgrRun) : MgrOp → MgrRun
  | .add song => { r with state := r.state.AddSong song, adds := r.adds + 1 }
  | .pop =>
    let p := r.state.PopQueue
    { r with
      state := p.2
      pops := r.pops + 1
      okPops := r.okPops + (if p.1.isSome then 1 else 0) }
  | .remove songId userId =>
    let p := r.state.RemoveSong songId userId
    { r with
      state := p.2
      okRemoves := r.okRemoves +
        (match p.1 with | .removed _ => 1 | _ => 0) }

/-- Run a list of counted manager operations. -/
def mgrRun (r : MgrRun) : List MgrOp → MgrRun
  | [] => r
  | op :: ops => mgrRun (mgrStep r op) ops

/-- Counted run starting from a queue state with all counters zero. -/
def mgrStart (fifo : FifoQueuer) : MgrRun := ⟨fifo, 0, 0, 0, 0⟩

/-- Song ids of the `add` operations of a history, in order. -/
def addedIds : List MgrOp → List Nat
  | [] => []
  | .add song :: ops => song.songId :: addedIds ops
  | .pop :: ops => addedIds ops
  | .remove _ _ :: ops => addedIds ops

/-! ### Files and the snapshot world

`SavePlaylist` writes `proto.Marshal(GetPlaylist())` to a path with
`ioutil.WriteFile`, and `loadPlaylistFromFile` reads a path back and
`proto.Unmarshal`s it.  The marshalling is an external library bijection
on `Playlist` messages, so a file store maps paths to playlist values:
a write prepends an entry and a read returns the most recent entry for
the path. -/

/-- The file store: newest write first. -/
abbrev FileStore := List (String × List Song)

/-- Write a playlist value at a path (newest first). -/
def writeFile (files : FileStore) (path : String) (content : List Song) :
    FileStore :=
  (path, content) :: files

/-- Read the most recent playlist value written at a path. -/
def readFile (files : FileStore) (path : String) : Option (List Song) :=
  match files with
  | [] => none
  | (p, c) :: rest => if p = path then some c else readFile rest path

/-- A queue together with the file store.  The queue operations
(`AddSong`, `PopQueue`, `RemoveSong`) perform no file writes in the
source, which `worldRun` reflects. -/
structure World where
  queue : FifoQueuer
  files : FileStore

/-- Source `FifoQueuer.SavePlaylist(path)`: write the current playlist to the
file at `path`. -/
def worldSave (w : World) (path : String) : World :=
  { w with files := writeFile w.files path w.queue.SavePlaylist }

/-- Run queue-manager operations; they touch only the queue, never the
file store (no queue mutation in the source performs I/O itself). -/
def worldRun (w : World) : List MgrOp → World
  | [] => w
  | op :: ops => worldRun { w with queue := applyMgr w.queue op } ops

/-- The per-song copy of `BackendServer.loadPlaylistFromFile`: a new
`cmpb.Song` built field by field from the decoded record. -/
def reconstructSong (s : Song) : Song :=
  { title := s.title
    songId := s.songId
    username := s.username
    userId := s.userId
    service := s.service
    serviceId := s.serviceId }

/-- Source `BackendServer.loadPlaylistFromFile`: read and decode the file; on
failure leave the queue untouched; on success `AddSong` each
reconstructed record in order. -/
def loadPlaylistFromFile (files : FileStore) (path : String)
    (fifo : FifoQueuer) : FifoQueuer :=
  match readFile files path with
  | none => fifo
  | some songs => (songs.map reconstructSong).foldl FifoQueuer.AddSong fifo

/-! ### The backend RPC handlers

The handlers below are the `BackendServer` methods that touch the queue
and the snapshot file.  The queueMgr field of the server delegates these calls to
its queuer; it is modelled by the `FifoQueuer` from this source.  The
database, user cache and metadata fetcher are external collaborators,
passed as lookup functions. -/

/-- Path "/tmp/ytbox.queue", the well-known snapshot location
(`queueSnapshot` constant of the server source). -/
def queueSnapshot : String := "/tmp/ytbox.queue"

/-- The `bepb.Error` response message. -/
structure BeError where
  success : Bool
  message : String
deriving DecidableEq, Repr

/-- The `bepb.CommandType` values used by the server. -/
inductive CommandType where
  | play
  | pause
  | next
deriving DecidableEq, Repr

/-- The `bepb.PlayerControl` message: a command and an optional song
payload (`none` models a `nil` song pointer). -/
structure PlayerControl where
  command : CommandType
  song : Option Song
deriving DecidableEq, Repr

/-- The `bepb.Submission` message: a source link and the submitter id. -/
structure Submission where
  link : String
  userId : Nat
deriving DecidableEq, Repr

/-- The song metadata `fetchSongData` resolves from a link (external
music-service lookup). -/
structure SongMeta where
  title : String
  songId : Nat
  service : Nat
  serviceId : String
deriving DecidableEq, Repr

/-- Result of the `SendSong` handler: new queue, new file store, and
the `bepb.Error` response. -/
structure SendSongResult where
  queue : FifoQueuer
  files : FileStore
  response : BeError

/-- Source `BackendServer.SendSong`: resolve the submitter name (failure:
reject, no mutation), fetch the song metadata (failure: reject, no
mutation), then `AddSong`, record it in the database (external), and
`SavePlaylist(queueSnapshot)`. -/
def SendSong (lookupUsername : Nat → Option String)
    (fetchSongData : String → Option SongMeta)
    (queue : FifoQueuer) (files : FileStore) (sub : Submission) :
    SendSongResult :=
  match lookupUsername sub.userId with
  | none => ⟨queue, files, ⟨false, "Song submitted by unknown user"⟩⟩
  | some name =>
    match fetchSongData sub.link with
    | none => ⟨queue, files, ⟨false, "failed to fetch song data"⟩⟩
    | some meta =>
      let song : Song :=
        ⟨meta.title, meta.songId, name, sub.userId, meta.service,
          meta.serviceId⟩
      let q1 := queue.AddSong song
      ⟨q1, writeFile files queueSnapshot q1.SavePlaylist, ⟨true, "Success"⟩⟩

/-- Result of the backend `PopQueue` handler: new queue, new file
store, and the returned song (`none` models the empty `cmpb.Song`). -/
structure ServerPopResult where
  queue : FifoQueuer
  files : FileStore
  song : Option Song

/-- Source `BackendServer.PopQueue`: if the queue is non-empty, pop, snapshot
to `queueSnapshot`, and return the song; otherwise return an empty song
and do nothing. -/
def ServerPopQueue (queue : FifoQueuer) (files : FileStore) :
    ServerPopResult :=
  if queue.Len > 0 then
    let p := queue.PopQueue
    ⟨p.2, writeFile files queueSnapshot p.2.SavePlaylist, p.1⟩
  else
    ⟨queue, files, none⟩

/-- Result of the `NextSong` handler: new queue, new file store, the
`PlayerControl` broadcast to the players, and the response. -/
structure NextSongResult where
  queue : FifoQueuer
  files : FileStore
  control : PlayerControl
  response : BeError

/-- Source `BackendServer.NextSong` (operator skip): pop the queue, broadcast
a `Next` command carrying the popped song (possibly `nil`), and report
success.  No snapshot is written. -/
def ServerNextSong (queue : FifoQueuer) (files : FileStore) :
    NextSongResult :=
  let p := queue.PopQueue
  ⟨p.2, files, ⟨.next, p.1⟩, ⟨true, "Success"⟩⟩

/-- Result of the backend `SavePlaylist` handler. -/
structure ServerSaveResult where
  files : FileStore
  response : BeError

/-- Source `BackendServer.SavePlaylist`: save the playlist to the
caller-given path and report success. -/
def ServerSavePlaylist (queue : FifoQueuer) (files : FileStore)
    (path : String) : ServerSaveResult :=
  ⟨writeFile files path queue.SavePlaylist, ⟨true, "Success"⟩⟩

/-! ### The `WaitForMoreSongs` interleaving machine

`WaitForMoreSongs` locks `cond.L`, loops on `Len() == 0` and calls
`cond.Wait()`.  `AddSong` pushes under the queue lock and calls
`cond.Broadcast()` when the new length is 1 — without acquiring
`cond.L`.  The machine below has one waiter thread and one adder
thread; each listed event is one critical section of the source
(`Len()` reads under the queue read-lock, `AddSong` pushes and
broadcasts under the queue write-lock), so events are atomic.  Because
`Broadcast` does not take `cond.L`, the `addSong` event is enabled even
while the waiter holds that mutex between its check and its wait — the
race window of the claim. -/

/-- Program counter of the waiter thread inside `WaitForMoreSongs`. -/
inductive WaiterPC where
  | beforeLock
  | checking
  | preWait
  | parked
  | done
deriving DecidableEq, Repr

/-- Combined state: queue length, whether the waiter holds `cond.L`
(the adder never takes it, as in the source), and the waiter pc. -/
structure WaitState where
  len : Nat
  condLockHeld : Bool
  pc : WaiterPC
deriving DecidableEq, Repr

/-- Atomic events of the two threads. -/
inductive WaitEvent where
  | lockCond
  | checkLen
  | enterWait
  | addSong
deriving DecidableEq, Repr

/-- One atomic step; `none` when the event is not enabled.
`lockCond`: the waiter acquires `cond.L`.
`checkLen`: the waiter evaluates `fifo.Len() == 0`; if non-zero it
exits the loop, unlocks and returns (`done`).
`enterWait`: the waiter calls `cond.Wait()`, parking and atomically
releasing `cond.L`.
`addSong`: the adder appends a song; if the new length is 1 it calls
`Broadcast`, which wakes a parked waiter (who reacquires `cond.L` and
rechecks) and is lost if the waiter is not yet parked. -/
def waitStep (st : WaitState) : WaitEvent → Option WaitState
  | .lockCond =>
    match st.pc, st.condLockHeld with
    | .beforeLock, false => some { st with condLockHeld := true, pc := .checking }
    | _, _ => none
  | .checkLen =>
    match st.pc with
    | .checking =>
      if st.len = 0 then some { st with pc := .preWait }
      else some { st with pc := .done, condLockHeld := false }
    | _ => none
  | .enterWait =>
    match st.pc with
    | .preWait => some { st with pc := .parked, condLockHeld := false }
    | _ => none
  | .addSong =>
    if st.len + 1 = 1 then
      match st.pc with
      | .parked => some ⟨st.len + 1, true, .checking⟩
      | _ => some { st with len := st.len + 1 }
    else
      some { st with len := st.len + 1 }

/-- Run a list of events; `none` if any event was not enabled. -/
def waitRun (st : WaitState) : List WaitEvent → Option WaitState
  | [] => some st
  | e :: es =>
    match waitStep st e with
    | none => none
    | some st1 => waitRun st1 es

/-- Initial state: empty queue, lock free, waiter about to enter
`WaitForMoreSongs`. -/
def waitInit : WaitState := ⟨0, false, .beforeLock⟩

/-! ### Concrete songs used by the closed example theorems -/

/-- Concrete song with id 1, submitter 10. -/
def songA : Song := ⟨"a", 1, "alice", 10, 0, "sa"⟩

/-- Concrete song with id 2, submitter 20. -/
def songB : Song := ⟨"b", 2, "bob", 20, 0, "sb"⟩

/-- Concrete song with id 3, submitter 30. -/
def songC : Song := ⟨"c", 3, "carol", 30, 0, "sc"⟩

/-- Concrete song that shares id 1 with songA but is submitted by user 40. -/
def songD : Song := ⟨"d", 1, "dave", 40, 0, "sd"⟩

/-! ## Helper lemmas -/

/-- Lemma: `PopQueue` returns the head of the play queue. -/
theorem popQueue_fst (fifo : FifoQueuer) :
    (fifo.PopQueue).1 = fifo.playQueue.head? := by
  cases fifo with
  | mk q np => cases q <;> rfl

/-- Lemma: `PopQueue` leaves the tail of the play queue. -/
theorem popQueue_snd_playQueue (fifo : FifoQueuer) :
    (fifo.PopQueue).2.playQueue = fifo.playQueue.tail := by
  cases fifo with
  | mk q np => cases q <;> rfl

/-- Lemma: a scan over a list with no matching song id reports
not-found. -/
theorem removeScan_notFound (songId userId : Nat) (l : List Song)
    (h : ∀ s ∈ l, s.songId ≠ songId) :
    FifoQueuer.removeScan songId userId l = .notFound := by
  induction l with
  | nil => rfl
  | cons s rest ih =>
    have hs : ¬ s.songId = songId := h s (by simp)
    have hr := ih (fun t ht => h t (by simp [ht]))
    simp only [FifoQueuer.removeScan, if_neg hs]
    rw [hr]

/-- Lemma: when the first element with the given song id has another
submitter, the scan reports the permission error. -/
theorem removeScan_permissionDenied (songId userId : Nat)
    (pre : List Song) (s : Song) (post : List Song)
    (hpre : ∀ t ∈ pre, t.songId ≠ songId)
    (hs : s.songId = songId) (hu : s.userId ≠ userId) :
    FifoQueuer.removeScan songId userId (pre ++ s :: post) =
      .permissionDenied := by
  induction pre with
  | nil => simp [FifoQueuer.removeScan, hs, hu]
  | cons t pre ih =>
    have ht : ¬ t.songId = songId := hpre t (by simp)
    have hr := ih (fun u hu2 => hpre u (by simp [hu2]))
    simp only [List.cons_append, FifoQueuer.removeScan, if_neg ht]
    rw [List.append_eq, hr]

/-- Lemma: when the first element with the given song id also has the
given submitter, the scan removes exactly that occurrence. -/
theorem removeScan_removed (songId userId : Nat)
    (pre : List Song) (s : Song) (post : List Song)
    (hpre : ∀ t ∈ pre, t.songId ≠ songId)
    (hs : s.songId = songId) (hu : s.userId = userId) :
    FifoQueuer.removeScan songId userId (pre ++ s :: post) =
      .removed (pre ++ post) := by
  induction pre with
  | nil => simp [FifoQueuer.removeScan, hs, hu]
  | cons t pre ih =>
    have ht : ¬ t.songId = songId := hpre t (by simp)
    have hr := ih (fun u hu2 => hpre u (by simp [hu2]))
    simp only [List.cons_append, FifoQueuer.removeScan, if_neg ht]
    rw [List.append_eq, hr]

/-! ## Claim theorems -/

/-- Claim C1, counterexample.  The claim says a pop on an empty queue
has no side effects and leaves NowPlaying unchanged.  In the source,
`PopQueue` assigns `fifo.nowPlaying = nil` before it checks whether the
queue is empty, so a pop on an empty queue with a song still marked as
now playing clears that song: NowPlaying is changed by the call. -/
theorem popQueue_empty_clears_nowPlaying_cex :
    (FifoQueuer.PopQueue ⟨[], some songA⟩).1 = none
    ∧ (FifoQueuer.PopQueue ⟨[], some songA⟩).2.playQueue = []
    ∧ FifoQueuer.NowPlaying ⟨[], some songA⟩ = some songA
    ∧ (FifoQueuer.PopQueue ⟨[], some songA⟩).2.NowPlaying
        ≠ FifoQueuer.NowPlaying ⟨[], some songA⟩ := by
  refine ⟨rfl, rfl, rfl, ?_⟩
  decide

/-- Claim C1, amended.  For every state in which the queue is empty,
`PopQueue` returns empty, leaves the queue empty, and unconditionally
clears NowPlaying (so NowPlaying is unchanged only when it was already
empty). -/
theorem popQueue_empty_queue (fifo : FifoQueuer)
    (h : fifo.playQueue = []) :
    (fifo.PopQueue).1 = none
    ∧ (fifo.PopQueue).2.playQueue = []
    ∧ (fifo.PopQueue).2.nowPlaying = none := by
  cases fifo with
  | mk q np =>
    cases h
    exact ⟨rfl, rfl, rfl⟩

/-- Witness for the amended claim C1 at the empty queue with songB
marked now playing. -/
theorem popQueue_empty_queue_witness :
    (FifoQueuer.PopQueue ⟨[], some songB⟩).1 = none
    ∧ (FifoQueuer.PopQueue ⟨[], some songB⟩).2.playQueue = []
    ∧ (FifoQueuer.PopQueue ⟨[], some songB⟩).2.nowPlaying = none :=
  popQueue_empty_queue ⟨[], some songB⟩ rfl

/-- Claim C2, counterexample.  The claim says `AddSong` rejects a song
whose id is already queued, keeping the no-duplicate invariant.  The
source `AddSong` performs no duplicate check: adding the same song
twice yields a queue holding two elements with song id 1, and the
second add is not a no-op. -/
theorem addSong_duplicate_cex :
    ((FifoQueuer.Init.AddSong songA).AddSong songA).playQueue
        = [songA, songA]
    ∧ (FifoQueuer.Init.AddSong songA).AddSong songA
        ≠ FifoQueuer.Init.AddSong songA
    ∧ (((FifoQueuer.Init.AddSong songA).AddSong songA).playQueue.countP
        (fun s => s.songId == songA.songId)) = 2 := by
  refine ⟨rfl, by decide, by decide⟩

/-- Claim C2, amended.  `AddSong` unconditionally appends the song to
the back of the queue — even when a song with the same id is already
present — and leaves NowPlaying alone; duplicates are never rejected,
so the no-two-same-id invariant is not maintained by the queuer. -/
theorem addSong_always_appends (fifo : FifoQueuer) (song : Song) :
    (fifo.AddSong song).playQueue = fifo.playQueue ++ [song]
    ∧ (fifo.AddSong song).nowPlaying = fifo.nowPlaying :=
  ⟨rfl, rfl⟩

/-- Claim C3.  For every state in which the queue is non-empty,
`PopQueue` returns the front (FIFO-next) song, removes it from the
queue, and sets it as NowPlaying, so that `NowPlaying()` immediately
afterwards returns exactly the returned song. -/
theorem popQueue_nonempty (fifo : FifoQueuer) (s : Song)
    (rest : List Song) (h : fifo.playQueue = s :: rest) :
    (fifo.PopQueue).1 = some s
    ∧ (fifo.PopQueue).2.playQueue = rest
    ∧ (fifo.PopQueue).2.NowPlaying = some s := by
  cases fifo with
  | mk q np =>
    cases h
    exact ⟨rfl, rfl, rfl⟩

/-- Witness for claim C3 at the queue [songA, songB] with songC
playing. -/
theorem popQueue_nonempty_witness :
    (FifoQueuer.PopQueue ⟨[songA, songB], some songC⟩).1 = some songA
    ∧ (FifoQueuer.PopQueue ⟨[songA, songB], some songC⟩).2.playQueue
        = [songB]
    ∧ (FifoQueuer.PopQueue ⟨[songA, songB], some songC⟩).2.NowPlaying
        = some songA :=
  popQueue_nonempty ⟨[songA, songB], some songC⟩ songA [songB] rfl

/-- Claim C4, counterexample.  The claim demands PermissionDenied (and
an unchanged queue) whenever some song with the given id exists whose
submitter differs from the caller.  With the queue [songA, songD] —
both with song id 1, songD submitted by user 40 — the call
`RemoveSong(1, 10)` succeeds and removes songA, although songD is a
song with id 1 whose submitter differs from 10: the scan only ever
examines the first id match. -/
theorem removeSong_first_match_cex :
    (∃ s ∈ (⟨[songA, songD], none⟩ : FifoQueuer).playQueue,
        s.songId = 1 ∧ s.userId ≠ 10)
    ∧ (FifoQueuer.RemoveSong ⟨[songA, songD], none⟩ 1 10).1
        = .removed [songD]
    ∧ (FifoQueuer.RemoveSong ⟨[songA, songD], none⟩ 1 10).2
        ≠ ⟨[songA, songD], none⟩ := by
  refine ⟨⟨songD, by decide, by decide, by decide⟩, by decide, by decide⟩

/-- Claim C4, amended.  `RemoveSong` acts on the first (frontmost) song
whose id matches: it fails with NotFound and leaves the state unchanged
when no song has the given id; it fails with PermissionDenied and
leaves the state unchanged when the first song with the given id has a
different submitter; it removes exactly that first occurrence and
succeeds when the submitter matches; and it never touches NowPlaying. -/
theorem removeSong_characterization (fifo : FifoQueuer)
    (songId userId : Nat) :
    ((∀ s ∈ fifo.playQueue, s.songId ≠ songId) →
        fifo.RemoveSong songId userId = (.notFound, fifo))
    ∧ (∀ pre s post, fifo.playQueue = pre ++ s :: post →
        (∀ t ∈ pre, t.songId ≠ songId) →
        s.songId = songId → s.userId ≠ userId →
        fifo.RemoveSong songId userId = (.permissionDenied, fifo))
    ∧ (∀ pre s post, fifo.playQueue = pre ++ s :: post →
        (∀ t ∈ pre, t.songId ≠ songId) →
        s.songId = songId → s.userId = userId →
        fifo.RemoveSong songId userId =
          (.removed (pre ++ post),
            { fifo with playQueue := pre ++ post }))
    ∧ (fifo.RemoveSong songId userId).2.nowPlaying = fifo.nowPlaying := by
  refine ⟨?_, ?_, ?_, ?_⟩
  · intro h
    unfold FifoQueuer.RemoveSong
    rw [removeScan_notFound songId userId _ h]
  · intro pre s post hq hpre hs hu
    unfold FifoQueuer.RemoveSong
    rw [hq, removeScan_permissionDenied songId userId pre s post hpre hs hu]
  · intro pre s post hq hpre hs hu
    unfold FifoQueuer.RemoveSong
    rw [hq, removeScan_removed songId userId pre s post hpre hs hu]
  · unfold FifoQueuer.RemoveSong
    cases hscan : FifoQueuer.removeScan songId userId fifo.playQueue <;>
      simp [hscan]

/-- Witness for the amended claim C4: on the one-song queue [songA]
(id 1, submitter 10), removal of an absent id 5 reports NotFound,
removal of id 1 by user 99 reports PermissionDenied, and removal of
id 1 by user 10 removes the song; NowPlaying is untouched. -/
theorem removeSong_characterization_witness :
    FifoQueuer.RemoveSong ⟨[songA], none⟩ 5 7 = (.notFound, ⟨[songA], none⟩)
    ∧ FifoQueuer.RemoveSong ⟨[songA], none⟩ 1 99
        = (.permissionDenied, ⟨[songA], none⟩)
    ∧ FifoQueuer.RemoveSong ⟨[songA], none⟩ 1 10
        = (.removed [], ⟨[], none⟩)
    ∧ (FifoQueuer.RemoveSong ⟨[songA], none⟩ 1 10).2.nowPlaying = none :=
  ⟨(removeSong_characterization ⟨[songA], none⟩ 5 7).1 (by decide),
   (removeSong_characterization ⟨[songA], none⟩ 1 99).2.1
      [] songA [] rfl (by decide) (by decide) (by decide),
   (removeSong_characterization ⟨[songA], none⟩ 1 10).2.2.1
      [] songA [] rfl (by decide) (by decide) (by decide),
   (removeSong_characterization ⟨[songA], none⟩ 1 10).2.2.2⟩

/-- Lemma: running the same add/pop operations on the queuer and on
the ghost-instrumented queue keeps the play queue equal to the ghost
queue with the sequence numbers erased. -/
theorem runAP_proj (ops : List APOp) (t : SeqQueue) (fifo : FifoQueuer)
    (h : fifo.playQueue = t.queue.map Prod.snd) :
    (runAP fifo ops).playQueue = (runSeq t ops).queue.map Prod.snd := by
  induction ops generalizing t fifo with
  | nil => exact h
  | cons op ops ih =>
    cases op with
    | add song =>
      apply ih
      simp [applyAP, applySeq, FifoQueuer.AddSong, h]
    | pop =>
      apply ih
      show (fifo.PopQueue).2.playQueue = _
      rw [popQueue_snd_playQueue, h]
      cases hq : t.queue <;> simp [applySeq, hq]

/-- Ghost invariant: the sequence numbers in the instrumented queue
increase strictly from front to back and stay below the counter. -/
def SeqOk (t : SeqQueue) : Prop :=
  t.queue.Pairwise (fun a b => a.1 < b.1) ∧ ∀ p ∈ t.queue, p.1 < t.counter

/-- Lemma: the ghost invariant is preserved by every add/pop step. -/
theorem seqOk_apply (t : SeqQueue) (op : APOp) (h : SeqOk t) :
    SeqOk (applySeq t op) := by
  obtain ⟨hp, hc⟩ := h
  cases op with
  | add song =>
    constructor
    · refine List.pairwise_append.2 ⟨hp, List.pairwise_singleton .., ?_⟩
      intro a ha b hb
      simp only [List.mem_singleton] at hb
      subst hb
      exact hc a ha
    · intro p hp2
      rcases List.mem_append.1 hp2 with h1 | h1
      · exact Nat.lt_succ_of_lt (hc p h1)
      · simp only [List.mem_singleton] at h1
        subst h1
        exact Nat.lt_succ_self _
  | pop =>
    constructor
    · exact List.Pairwise.sublist (List.tail_sublist _) hp
    · intro p hp2
      exact hc p (List.mem_of_mem_tail hp2)

/-- Lemma: the ghost invariant holds after any run from the initial
state. -/
theorem seqOk_run (ops : List APOp) (t : SeqQueue) (h : SeqOk t) :
    SeqOk (runSeq t ops) := by
  induction ops generalizing t with
  | nil => exact h
  | cons op ops ih => exact ih _ (seqOk_apply t op h)

/-- Lemma: the ghost invariant holds initially. -/
theorem seqOk_init : SeqOk seqInit :=
  ⟨List.Pairwise.nil, by simp [seqInit]⟩

/-- Claim C5.  Under the FIFO policy, for every sequence of `AddSong`
and `PopQueue` operations from the initial state: whenever the queue is
non-empty, the next `PopQueue` returns the front song, and that song
carries the smallest enqueue sequence number among all songs still
present — songs come out in exact submission order. -/
theorem fifoPop_returns_earliest (ops : List APOp) (n : Nat) (s : Song)
    (rest : List (Nat × Song))
    (h : (runSeq seqInit ops).queue = (n, s) :: rest) :
    ((runAP FifoQueuer.Init ops).PopQueue).1 = some s
    ∧ ∀ p ∈ (runSeq seqInit ops).queue, n ≤ p.1 := by
  have hproj := runAP_proj ops seqInit FifoQueuer.Init rfl
  constructor
  · rw [popQueue_fst, hproj, h]
    simp
  · have hok := seqOk_run ops seqInit seqOk_init
    obtain ⟨hp, -⟩ := hok
    rw [h] at hp
    intro p hp2
    rw [h] at hp2
    rcases List.mem_cons.1 hp2 with h1 | h1
    · subst h1
      exact Nat.le_refl n
    · exact Nat.le_of_lt ((List.pairwise_cons.1 hp).1 p h1)

/-- Witness for claim C5: after adds of songA, songB, a pop, and an
add of songC, the front song is songB with enqueue number 1, the
smallest still present. -/
theorem fifoPop_returns_earliest_witness :
    ((runAP FifoQueuer.Init
        [APOp.add songA, APOp.add songB, APOp.pop, APOp.add songC]).PopQueue).1
      = some songB
    ∧ ∀ p ∈ (runSeq seqInit
        [APOp.add songA, APOp.add songB, APOp.pop, APOp.add songC]).queue,
        1 ≤ p.1 :=
  fifoPop_returns_earliest
    [APOp.add songA, APOp.add songB, APOp.pop, APOp.add songC]
    1 songB [(2, songC)] (by decide)

/-- Lemma: queue-manager operations never touch the file store. -/
theorem worldRun_files (ops : List MgrOp) (w : World) :
    (worldRun w ops).files = w.files := by
  induction ops generalizing w with
  | nil => rfl
  | cons op ops ih => exact ih _

/-- Lemma: reading a path just written returns the written content. -/
theorem readFile_writeFile (files : FileStore) (path : String)
    (content : List Song) :
    readFile (writeFile files path content) path = some content := by
  simp [readFile, writeFile]

/-- Lemma: the field-by-field copy of the load loop rebuilds the exact
song record. -/
theorem reconstructSong_eq (s : Song) : reconstructSong s = s := rfl

/-- Lemma: folding `AddSong` over a list appends it to the play
queue. -/
theorem foldl_addSong (l : List Song) (fifo : FifoQueuer) :
    l.foldl FifoQueuer.AddSong fifo =
      ⟨fifo.playQueue ++ l, fifo.nowPlaying⟩ := by
  induction l generalizing fifo with
  | nil =>
    cases fifo
    simp
  | cons s l ih =>
    rw [List.foldl_cons, ih]
    simp [FifoQueuer.AddSong]

/-- Claim C7.  Saving the playlist to a path and later loading that
path into a fresh server reconstructs, in order and field by field, the
exact sequence of songs that was in the queue at save time — whatever
queue mutations (adds, pops, removes) happen between the save and the
load. -/
theorem savePlaylist_load_roundtrip (w : World) (path : String)
    (ops : List MgrOp) :
    loadPlaylistFromFile (worldRun (worldSave w path) ops).files path
        FifoQueuer.Init = ⟨w.queue.GetPlaylist, none⟩ := by
  unfold loadPlaylistFromFile
  rw [worldRun_files]
  show (match readFile (writeFile w.files path w.queue.SavePlaylist) path with
    | none => FifoQueuer.Init
    | some songs =>
      (songs.map reconstructSong).foldl FifoQueuer.AddSong FifoQueuer.Init)
    = _
  rw [readFile_writeFile]
  show List.foldl FifoQueuer.AddSong FifoQueuer.Init
      (List.map reconstructSong w.queue.SavePlaylist) = _
  have hid : reconstructSong = id := funext fun s => rfl
  rw [hid, List.map_id, foldl_addSong]
  rfl

/-- Lemma: a successful removal shortens the list by exactly one. -/
theorem removeScan_removed_length (songId userId : Nat) :
    ∀ l q : List Song,
      FifoQueuer.removeScan songId userId l = .removed q →
      q.length + 1 = l.length := by
  intro l
  induction l with
  | nil =>
    intro q h
    simp [FifoQueuer.removeScan] at h
  | cons s rest ih =>
    intro q h
    by_cases hs : s.songId = songId
    · by_cases hu : s.userId = userId
      · simp only [FifoQueuer.removeScan, if_pos hs, if_pos hu,
          FifoQueuer.RemoveOutcome.removed.injEq] at h
        subst h
        simp
      · simp [FifoQueuer.removeScan, if_pos hs, if_neg hu] at h
    · simp only [FifoQueuer.removeScan, if_neg hs] at h
      cases hr : FifoQueuer.removeScan songId userId rest with
      | removed q0 =>
        rw [hr] at h
        simp only [FifoQueuer.RemoveOutcome.removed.injEq] at h
        subst h
        have := ih q0 hr
        simp only [List.length_cons]
        omega
      | permissionDenied =>
        rw [hr] at h
        simp at h
      | notFound =>
        rw [hr] at h
        simp at h

/-- Balance of a counted run: the queue length plus the successful
pops and removes, minus the adds, over the integers. -/
def mgrMeasure (r : MgrRun) : Int :=
  (r.state.Len : Int) + r.okPops + r.okRemoves - r.adds

/-- Lemma: every counted manager step preserves the balance. -/
theorem mgrStep_measure (r : MgrRun) (op : MgrOp) :
    mgrMeasure (mgrStep r op) = mgrMeasure r := by
  cases op with
  | add song =>
    simp only [mgrMeasure, mgrStep, FifoQueuer.AddSong, FifoQueuer.Len,
      List.length_append, List.length_singleton]
    push_cast
    ring
  | pop =>
    cases hq : r.state.playQueue with
    | nil =>
      simp [mgrMeasure, mgrStep, FifoQueuer.PopQueue, FifoQueuer.Len, hq]
    | cons s rest =>
      simp only [mgrMeasure, mgrStep, FifoQueuer.PopQueue, FifoQueuer.Len, hq]
      simp
      omega
  | remove songId userId =>
    cases hr : FifoQueuer.removeScan songId userId r.state.playQueue with
    | removed q =>
      have hlen := removeScan_removed_length songId userId _ q hr
      simp only [mgrMeasure, mgrStep, FifoQueuer.RemoveSong, hr,
        FifoQueuer.Len]
      omega
    | permissionDenied =>
      simp [mgrMeasure, mgrStep, FifoQueuer.RemoveSong, hr]
    | notFound =>
      simp [mgrMeasure, mgrStep, FifoQueuer.RemoveSong, hr]

/-- Lemma: an entire counted run preserves the balance. -/
theorem mgrRun_measure (ops : List MgrOp) (r : MgrRun) :
    mgrMeasure (mgrRun r ops) = mgrMeasure r := by
  induction ops generalizing r with
  | nil => rfl
  | cons op ops ih =>
    rw [mgrRun, ih, mgrStep_measure]

/-- Claim C8, counterexample.  The claim counts every `PopQueue` call.
A single pop on the empty initial queue is a pop that removed nothing:
the queue length is 0 while "adds minus pops minus successful removes"
is -1, so the claimed equation fails (even though all add ids are
trivially distinct). -/
theorem len_counts_all_pops_cex :
    (addedIds [MgrOp.pop]).Nodup
    ∧ ¬ (((mgrRun (mgrStart FifoQueuer.Init) [MgrOp.pop]).state.Len : Int)
        = ((mgrRun (mgrStart FifoQueuer.Init) [MgrOp.pop]).adds : Int)
          - ((mgrRun (mgrStart FifoQueuer.Init) [MgrOp.pop]).pops : Int)
          - ((mgrRun (mgrStart FifoQueuer.Init) [MgrOp.pop]).okRemoves : Int)) := by
  refine ⟨by decide, by decide⟩

/-- Claim C8, amended.  For every sequence of adds (with distinct song
ids), pops and removes from the initial state, at every quiescent point
`Len()` equals the number of adds minus the number of pops that
returned a song minus the number of successful removes; the popped
NowPlaying song leaves the play queue and is not counted by `Len`. -/
theorem len_accounting (ops : List MgrOp)
    (h : (addedIds ops).Nodup) :
    ((mgrRun (mgrStart FifoQueuer.Init) ops).state.Len : Int)
      = ((mgrRun (mgrStart FifoQueuer.Init) ops).adds : Int)
        - ((mgrRun (mgrStart FifoQueuer.Init) ops).okPops : Int)
        - ((mgrRun (mgrStart FifoQueuer.Init) ops).okRemoves : Int) := by
  have hm := mgrRun_measure ops (mgrStart FifoQueuer.Init)
  have h0 : mgrMeasure (mgrStart FifoQueuer.Init) = 0 := rfl
  rw [h0] at hm
  unfold mgrMeasure at hm
  omega

/-- Witness for the amended claim C8: three adds with distinct ids,
two song-returning pops and one successful remove leave length
3 - 2 - 1 = 0. -/
theorem len_accounting_witness :
    ((mgrRun (mgrStart FifoQueuer.Init)
        [MgrOp.add songA, MgrOp.add songB, MgrOp.add songC, MgrOp.pop,
          MgrOp.remove 2 20, MgrOp.pop]).state.Len : Int)
      = ((mgrRun (mgrStart FifoQueuer.Init)
          [MgrOp.add songA, MgrOp.add songB, MgrOp.add songC, MgrOp.pop,
            MgrOp.remove 2 20, MgrOp.pop]).adds : Int)
        - ((mgrRun (mgrStart FifoQueuer.Init)
            [MgrOp.add songA, MgrOp.add songB, MgrOp.add songC, MgrOp.pop,
              MgrOp.remove 2 20, MgrOp.pop]).okPops : Int)
        - ((mgrRun (mgrStart FifoQueuer.Init)
            [MgrOp.add songA, MgrOp.add songB, MgrOp.add songC, MgrOp.pop,
              MgrOp.remove 2 20, MgrOp.pop]).okRemoves : Int) :=
  len_accounting
    [MgrOp.add songA, MgrOp.add songB, MgrOp.add songC, MgrOp.pop,
      MgrOp.remove 2 20, MgrOp.pop]
    (by decide)

/-- Lemma: once the waiter is parked while the queue is non-empty, no
continuation of adder activity ever wakes it: `Broadcast` only fires on
a length transition to 1, which cannot recur while the length stays at
least 1, and all waiter events are disabled while parked. -/
theorem parked_stuck :
    ∀ (evs : List WaitEvent) (st : WaitState),
      st.pc = .parked → 1 ≤ st.len →
      ∀ st2, waitRun st evs = some st2 →
        st2.pc = .parked ∧ 1 ≤ st2.len := by
  intro evs
  induction evs with
  | nil =>
    intro st h1 h2 st2 h
    simp only [waitRun, Option.some.injEq] at h
    subst h
    exact ⟨h1, h2⟩
  | cons e rest ih =>
    intro st h1 h2 st2 h
    cases e with
    | lockCond =>
      rw [waitRun] at h
      rw [show waitStep st .lockCond = none by
        simp only [waitStep, h1]] at h
      exact absurd h (by simp)
    | checkLen =>
      rw [waitRun] at h
      rw [show waitStep st .checkLen = none by
        simp only [waitStep, h1]] at h
      exact absurd h (by simp)
    | enterWait =>
      rw [waitRun] at h
      rw [show waitStep st .enterWait = none by
        simp only [waitStep, h1]] at h
      exact absurd h (by simp)
    | addSong =>
      have hne : ¬ st.len + 1 = 1 := by omega
      rw [waitRun] at h
      rw [show waitStep st .addSong = some { st with len := st.len + 1 } by
        simp only [waitStep, if_neg hne]] at h
      exact ih { st with len := st.len + 1 } h1 (Nat.succ_le_succ (Nat.zero_le st.len)) st2 h

/-- Claim C9 (the spec requires handling the check-to-wait race; the
code does not, and this theorem exhibits the missed wakeup on the
interleaving machine).  Trace: the waiter acquires the condition
mutex and sees `Len() == 0`; before it reaches `cond.Wait()`, `AddSong`
pushes a song — transitioning the length 0→1 — and issues its
`Broadcast`, which is not blocked by the condition mutex because
`AddSong` never acquires it; the broadcast wakes nobody; the waiter
then parks.  The run ends with length 1 and the waiter parked, and
every adder-only continuation leaves it parked with the queue
non-empty: the 0→1 `AddSong` failed to unblock the waiter, so
`WaitForMoreSongs` misses the wakeup the claim promises. -/
theorem waitForMoreSongs_missed_wakeup :
    waitRun waitInit
        [.lockCond, .checkLen, .addSong, .enterWait]
      = some ⟨1, false, .parked⟩
    ∧ ∀ (evs : List WaitEvent) (st2 : WaitState),
        waitRun ⟨1, false, .parked⟩ evs = some st2 →
        st2.pc = .parked ∧ 1 ≤ st2.len :=
  ⟨by decide, fun evs st2 h => parked_stuck evs ⟨1, false, .parked⟩ rfl (by decide) st2 h⟩

/-- Witness for claim C9: the stuck lemma applied to the one-event
continuation where the adder enqueues a second song — the waiter is
still parked. -/
theorem waitForMoreSongs_missed_wakeup_witness :
    (waitRun waitInit
        [.lockCond, .checkLen, .addSong, .enterWait]
      = some ⟨1, false, .parked⟩)
    ∧ ((⟨2, false, .parked⟩ : WaitState).pc = .parked
        ∧ 1 ≤ (⟨2, false, .parked⟩ : WaitState).len) :=
  ⟨waitForMoreSongs_missed_wakeup.1,
   waitForMoreSongs_missed_wakeup.2 [.addSong] ⟨2, false, .parked⟩ (by decide)⟩

/-- Claim C6, counterexample.  The claim says a snapshot is written to
the well-known location after every queue-mutating operation,
explicitly including the operator skip `NextSong`.  With one song
queued and an empty file store, `NextSong` pops the queue — a mutation
of persisted order — yet performs no write at all: the file store stays
empty and the snapshot location remains unwritten. -/
theorem nextSong_writes_no_snapshot_cex :
    (ServerNextSong ⟨[songA], none⟩ []).queue.playQueue
        ≠ (⟨[songA], none⟩ : FifoQueuer).playQueue
    ∧ (ServerNextSong ⟨[songA], none⟩ []).files = []
    ∧ readFile (ServerNextSong ⟨[songA], none⟩ []).files queueSnapshot
        = none := by
  refine ⟨by decide, rfl, rfl⟩

/-- Claim C6, amended.  A snapshot of the playlist is written to the
well-known snapshot location after every successful song submission and
after every backend `PopQueue` call on a non-empty queue; the explicit
save writes the playlist to its caller-given path; the operator skip
`NextSong` pops the queue without writing any snapshot. -/
theorem snapshot_write_discipline (lookupUsername : Nat → Option String)
    (fetchSongData : String → Option SongMeta) (queue : FifoQueuer)
    (files : FileStore) (sub : Submission) (path : String) :
    ((SendSong lookupUsername fetchSongData queue files sub).response.success
        = true →
      (SendSong lookupUsername fetchSongData queue files sub).files
        = writeFile files queueSnapshot
            (SendSong lookupUsername fetchSongData queue files sub).queue.SavePlaylist)
    ∧ (queue.Len > 0 →
        (ServerPopQueue queue files).files
          = writeFile files queueSnapshot
              (ServerPopQueue queue files).queue.SavePlaylist)
    ∧ (ServerNextSong queue files).files = files
    ∧ (ServerSavePlaylist queue files path).files
        = writeFile files path queue.SavePlaylist := by
  refine ⟨?_, ?_, rfl, rfl⟩
  · intro hs
    cases hl : lookupUsername sub.userId with
    | none => simp [SendSong, hl] at hs
    | some name =>
      cases hf : fetchSongData sub.link with
      | none => simp [SendSong, hl, hf] at hs
      | some meta => simp [SendSong, hl, hf]
  · intro hlen
    simp [ServerPopQueue, if_pos hlen]

/-- Witness for the amended claim C6 at a successful submission (the
external lookups resolve), a pop on the one-song queue, a skip, and an
explicit save. -/
theorem snapshot_write_discipline_witness :
    ((SendSong (fun _ => some "alice") (fun _ => some ⟨"t", 9, 0, "sid"⟩)
        ⟨[songA], none⟩ [] ⟨"link", 10⟩).response.success = true)
    ∧ ((SendSong (fun _ => some "alice") (fun _ => some ⟨"t", 9, 0, "sid"⟩)
        ⟨[songA], none⟩ [] ⟨"link", 10⟩).files
        = writeFile [] queueSnapshot
            (SendSong (fun _ => some "alice") (fun _ => some ⟨"t", 9, 0, "sid"⟩)
              ⟨[songA], none⟩ [] ⟨"link", 10⟩).queue.SavePlaylist)
    ∧ ((⟨[songA], none⟩ : FifoQueuer).Len > 0)
    ∧ ((ServerPopQueue ⟨[songA], none⟩ []).files
        = writeFile [] queueSnapshot
            (ServerPopQueue ⟨[songA], none⟩ []).queue.SavePlaylist)
    ∧ (ServerNextSong ⟨[songA], none⟩ []).files = []
    ∧ (ServerSavePlaylist ⟨[songA], none⟩ [] "backup").files
        = writeFile [] "backup" (⟨[songA], none⟩ : FifoQueuer).SavePlaylist := by
  have hd := snapshot_write_discipline (fun _ => some "alice")
    (fun _ => some ⟨"t", 9, 0, "sid"⟩) ⟨[songA], none⟩ [] ⟨"link", 10⟩ "backup"
  exact ⟨by decide, hd.1 (by decide), by decide, hd.2.1 (by decide),
    hd.2.2.1, hd.2.2.2⟩

/-- Claim C10.  When the queue is empty, the operator skip `NextSong`
still clears NowPlaying (through the unconditional clear inside
`PopQueue`), broadcasts a Next command whose song payload is empty
(`nil`), and reports Success=true — it never returns an error for an
empty queue.  The queue stays empty and no file is written. -/
theorem nextSong_empty_queue (queue : FifoQueuer) (files : FileStore)
    (h : queue.playQueue = []) :
    (ServerNextSong queue files).control = ⟨.next, none⟩
    ∧ (ServerNextSong queue files).response = ⟨true, "Success"⟩
    ∧ (ServerNextSong queue files).queue.nowPlaying = none
    ∧ (ServerNextSong queue files).queue.playQueue = []
    ∧ (ServerNextSong queue files).files = files := by
  cases queue with
  | mk q np =>
    cases h
    exact ⟨rfl, rfl, rfl, rfl, rfl⟩

/-- Witness for claim C10 at the empty queue with songA still marked
now playing. -/
theorem nextSong_empty_queue_witness :
    (ServerNextSong ⟨[], some songA⟩ []).control = ⟨.next, none⟩
    ∧ (ServerNextSong ⟨[], some songA⟩ []).response = ⟨true, "Success"⟩
    ∧ (ServerNextSong ⟨[], some songA⟩ []).queue.nowPlaying = none
    ∧ (ServerNextSong ⟨[], some songA⟩ []).queue.playQueue = []
    ∧ (ServerNextSong ⟨[], some songA⟩ []).files = [] :=
  nextSong_empty_queue ⟨[], some songA⟩ [] rfl

end YtBox
